import Mathlib

/-!
Verification of the Orthanc `DatabaseWrapper` (src/OrthancServer/DatabaseWrapper.cpp)
against its natural-language specification.

The SQLite-backed store is shallowly embedded: each table is a list of rows,
each `DatabaseWrapper` method is a Lean function mirroring the SQL statement it
executes.  Machine integers are modelled as `Nat` with explicit `% 2^32` at the
one place where 32-bit wrap-around matters (the `maxResults + 1` computation of
the pagination queries, `uint32_t` in the C++).  Methods that can throw an
`OrthancException` return `Except ErrorCode _`.

Parts of the repository that the claims depend on but that are not among the
provided source files (the embedded schema script `PREPARE_DATABASE` with its
table keys and cascade triggers, the `ORTHANC_DATABASE_VERSION` constant of
`DatabaseWrapper.h`, and the enum values of `Core/Enumerations.h`) are modelled
from the specification; each such definition carries a doc comment saying so.
-/

namespace Orthanc

/-- Resource kinds, ordered Patient < Study < Series < Instance.
Modelled from the spec: the numeric enum values (`Core/Enumerations.h` is not
among the sources) follow the spec's ordering "kind is numerically smallest in
the {Patient<Study<Series<Instance} ordering (Patient is topmost)". -/
inductive ResourceType
  | Patient
  | Study
  | Series
  | Instance
deriving DecidableEq, Repr

/-- The integer value of a `ResourceType`, used by the C++ comparisons
(`remainingType_ >= context.GetIntValue(1)`). -/
def ResourceType.toNat : ResourceType → Nat
  | .Patient => 1
  | .Study => 2
  | .Series => 3
  | .Instance => 4

/-- The `Orthanc::ErrorCode` values that appear in DatabaseWrapper.cpp, plus
`SQLiteConstraint` for a backend constraint violation surfaced by
`SQLite::Statement::Run` (the SQLite wrapper is not among the sources; that a
failed statement surfaces as an exception is taken from the spec's
"fails only on duplicate-key violation at the backend level (propagated, not
swallowed)"). -/
inductive ErrorCode
  | UnknownResource
  | ParameterOutOfRange
  | IncompatibleDatabaseVersion
  | InternalError
  | SQLiteConstraint
deriving DecidableEq, Repr

/-- A DICOM tag, as `(group, element)`. -/
structure DicomTag where
  group : Nat
  element : Nat
deriving DecidableEq, Repr

/-- One row of the `Resources` table: `(internalId, resourceType, publicId, parentId)`. -/
structure ResourceRow where
  internalId : Nat
  resourceType : ResourceType
  publicId : String
  parentId : Option Nat
deriving DecidableEq, Repr

/-- One row of the `AttachedFiles` table; the fields of a `FileInfo`. -/
structure AttachedFileRow where
  id : Nat
  fileType : Nat
  uuid : String
  compressedSize : Nat
  uncompressedSize : Nat
  compressionType : Nat
  uncompressedMD5 : String
  compressedMD5 : String
deriving DecidableEq, Repr

/-- One row of the `Metadata` table. -/
structure MetadataRow where
  id : Nat
  type : Nat
  value : String
deriving DecidableEq, Repr

/-- One row of `MainDicomTags` or `DicomIdentifiers`. -/
structure TagRow where
  id : Nat
  tagGroup : Nat
  tagElement : Nat
  value : String
deriving DecidableEq, Repr

/-- One row of the `Changes` table. -/
structure ChangeRow where
  seq : Nat
  changeType : Nat
  internalId : Nat
  resourceType : ResourceType
  date : String
deriving DecidableEq, Repr

/-- One row of the `ExportedResources` table (also the record shape returned by
`GetExportedResources`, which copies every column). -/
structure ExportedRow where
  seq : Nat
  resourceType : ResourceType
  publicId : String
  modality : String
  patientId : String
  studyInstanceUid : String
  seriesInstanceUid : String
  sopInstanceUid : String
  date : String
deriving DecidableEq, Repr

/-- One row of the `PatientRecyclingOrder` table. -/
structure RecyclingRow where
  seq : Nat
  patientId : Nat
deriving DecidableEq, Repr

/-- The record shape returned by `GetChanges` (a `ServerIndexChange` with its
public id resolved at read time). -/
structure ServerIndexChange where
  seq : Nat
  changeType : Nat
  resourceType : ResourceType
  publicId : String
  date : String
deriving DecidableEq, Repr

/-- The whole SQLite store.  The `next…` counters model SQLite's rowid
auto-increment for the tables created with an integer-primary-key `seq`
column, and the rowid assigned to a freshly inserted resource. -/
structure DatabaseState where
  resources : List ResourceRow
  attachedFiles : List AttachedFileRow
  metadata : List MetadataRow
  mainDicomTags : List TagRow
  dicomIdentifiers : List TagRow
  changes : List ChangeRow
  exportedResources : List ExportedRow
  recycling : List RecyclingRow
  globalProperties : List (Nat × String)
  nextInternalId : Nat
  nextChangeSeq : Nat
  nextExportedSeq : Nat
  nextRecyclingSeq : Nat
deriving DecidableEq, Repr

/-- The calls made to the injected `IServerIndexListener`. -/
inductive Signal
  | fileDeleted (info : AttachedFileRow)
  | change (changeType : Nat) (resourceType : ResourceType) (publicId : String)
  | remainingAncestor (resourceType : ResourceType) (publicId : String)
deriving DecidableEq, Repr

/-! ## ORDER BY seq: an explicit insertion sort -/

/-- Insert `a` into `l` in front of the first element whose key is not
smaller; used to model `ORDER BY seq ASC`. -/
def insertBySeq (key : α → Nat) (a : α) : List α → List α
  | [] => [a]
  | b :: t => if key a ≤ key b then a :: b :: t else b :: insertBySeq key a t

/-- `ORDER BY key ASC` over a list of rows. -/
def sortBySeq (key : α → Nat) : List α → List α
  | [] => []
  | a :: t => insertBySeq key a (sortBySeq key t)

/-- Strictly increasing keys (the invariant of an append-only log whose `seq`
is auto-incremented). -/
abbrev SeqSorted (key : α → Nat) (l : List α) : Prop :=
  l.Pairwise (fun a b => key a < key b)

theorem insertBySeq_of_head_le (key : α → Nat) (a : α) (l : List α)
    (h : ∀ b ∈ l, key a ≤ key b) : insertBySeq key a l = a :: l := by
  cases l with
  | nil => rfl
  | cons b t =>
    simp only [insertBySeq, if_pos (h b (List.mem_cons_self b t))]

/-- Sorting a list whose keys are already strictly increasing is the identity. -/
theorem sortBySeq_eq_self (key : α → Nat) (l : List α) (h : SeqSorted key l) :
    sortBySeq key l = l := by
  induction l with
  | nil => rfl
  | cons a t ih =>
    have ht : SeqSorted key t := (List.pairwise_cons.1 h).2
    have ha : ∀ b ∈ t, key a ≤ key b := fun b hb =>
      Nat.le_of_lt ((List.pairwise_cons.1 h).1 b hb)
    rw [sortBySeq, ih ht, insertBySeq_of_head_le key a t ha]

/-! ## Resource CRUD (DatabaseWrapper.cpp lines 190-325, 929-941) -/

/-- `DatabaseWrapper::SetGlobalProperty` (lines 190-197):
`INSERT OR REPLACE INTO GlobalProperties VALUES(?, ?)`.  The table is keyed by
the property id (spec section 3: "Global property: key ... upsert semantics";
the schema script is not among the sources), so `INSERT OR REPLACE` drops any
conflicting row and inserts the new one. -/
def setGlobalProperty (st : DatabaseState) (property : Nat) (value : String) :
    DatabaseState :=
  { st with globalProperties :=
      st.globalProperties.filter (fun p => !(p.1 == property)) ++ [(property, value)] }

/-- `DatabaseWrapper::LookupGlobalProperty` (lines 199-215). -/
def lookupGlobalProperty (st : DatabaseState) (property : Nat) : Option String :=
  (st.globalProperties.find? (fun p => p.1 == property)).map (·.2)

/-- `DatabaseWrapper::CreateResource` (lines 217-225):
`INSERT INTO Resources VALUES(NULL, ?, ?, NULL)` — fresh rowid, the given type
and public id, and a NULL parent; returns the last-insert rowid.  Per the spec
the public id is globally unique ("fails only on duplicate-key violation at the
backend level (propagated, not swallowed)"; the schema script with its UNIQUE
constraint is not among the sources), so inserting a duplicate public id
surfaces a constraint error. -/
def createResource (st : DatabaseState) (publicId : String) (type : ResourceType) :
    Except ErrorCode (Nat × DatabaseState) :=
  if st.resources.any (fun r => r.publicId == publicId) then
    .error .SQLiteConstraint
  else
    .ok (st.nextInternalId,
      { st with
        resources := st.resources ++
          [{ internalId := st.nextInternalId, resourceType := type,
             publicId := publicId, parentId := none }]
        nextInternalId := st.nextInternalId + 1 })

/-- `DatabaseWrapper::LookupResource` (lines 227-249):
`SELECT internalId, resourceType FROM Resources WHERE publicId=?`. -/
def lookupResource (st : DatabaseState) (publicId : String) :
    Option (Nat × ResourceType) :=
  (st.resources.find? (fun r => r.publicId == publicId)).map
    (fun r => (r.internalId, r.resourceType))

/-- `DatabaseWrapper::LookupParent` (lines 251-272). -/
def lookupParent (st : DatabaseState) (resourceId : Nat) :
    Except ErrorCode (Option Nat) :=
  match st.resources.find? (fun r => r.internalId == resourceId) with
  | none => .error .UnknownResource
  | some r => .ok r.parentId

/-- `DatabaseWrapper::GetPublicId` (lines 274-286):
`SELECT publicId FROM Resources WHERE internalId=?`, throwing
`UnknownResource` when no row matches. -/
def getPublicId (resources : List ResourceRow) (resourceId : Nat) :
    Except ErrorCode String :=
  match resources.find? (fun r => r.internalId == resourceId) with
  | none => .error .UnknownResource
  | some r => .ok r.publicId

/-- `DatabaseWrapper::GetResourceType` (lines 289-301). -/
def getResourceType (resources : List ResourceRow) (resourceId : Nat) :
    Except ErrorCode ResourceType :=
  match resources.find? (fun r => r.internalId == resourceId) with
  | none => .error .UnknownResource
  | some r => .ok r.resourceType

/-- `DatabaseWrapper::AttachChild` (lines 304-311):
`UPDATE Resources SET parentId = ? WHERE internalId = ?`, unconditional. -/
def attachChild (st : DatabaseState) (parent child : Nat) : DatabaseState :=
  { st with resources := st.resources.map (fun r =>
      if r.internalId == child then { r with parentId := some parent } else r) }

/-- `DatabaseWrapper::GetChildren` (lines 314-325):
`SELECT publicId FROM Resources WHERE parentId=?`. -/
def getChildren (st : DatabaseState) (id : Nat) : List String :=
  (st.resources.filter (fun r => r.parentId == some id)).map (·.publicId)

/-- `DatabaseWrapper::GetChildrenPublicId` (lines 541-554): the self-join
`SELECT a.publicId FROM Resources AS a, Resources AS b WHERE a.parentId =
b.internalId AND b.internalId = ?` — one output row per matching `(b, a)`
pair, so an id with no `Resources` row yields no output at all. -/
def getChildrenPublicId (st : DatabaseState) (id : Nat) : List String :=
  (st.resources.filter (fun b => b.internalId == id)).flatMap (fun _ =>
    (st.resources.filter (fun a => a.parentId == some id)).map (·.publicId))

/-- `DatabaseWrapper::GetChildrenInternalId` (lines 557-570): same join,
selecting `a.internalId`. -/
def getChildrenInternalId (st : DatabaseState) (id : Nat) : List Nat :=
  (st.resources.filter (fun b => b.internalId == id)).flatMap (fun _ =>
    (st.resources.filter (fun a => a.parentId == some id)).map (·.internalId))

/-- `DatabaseWrapper::IsExistingResource` (lines 935-941). -/
def isExistingResource (st : DatabaseState) (internalId : Nat) : Bool :=
  st.resources.any (fun r => r.internalId == internalId)

/-! ## Metadata, attachments and tags (lines 344-519, 944-999) -/

/-- `DatabaseWrapper::SetMetadata` (lines 344-353):
`INSERT OR REPLACE INTO Metadata VALUES(?, ?, ?)`.  `Metadata` is keyed by
`(id, type)` (spec section 3: "at most one value per key"; the schema script is
not among the sources), so the statement drops any conflicting row and inserts
the new one. -/
def setMetadata (st : DatabaseState) (id type : Nat) (value : String) :
    DatabaseState :=
  { st with metadata :=
      st.metadata.filter (fun m => !(m.id == id && m.type == type)) ++
        [{ id := id, type := type, value := value }] }

/-- `DatabaseWrapper::DeleteMetadata` (lines 355-362). -/
def deleteMetadata (st : DatabaseState) (id type : Nat) : DatabaseState :=
  { st with metadata := st.metadata.filter (fun m => !(m.id == id && m.type == type)) }

/-- `DatabaseWrapper::LookupMetadata` (lines 364-382). -/
def lookupMetadata (st : DatabaseState) (id type : Nat) : Option String :=
  (st.metadata.find? (fun m => m.id == id && m.type == type)).map (·.value)

/-- `DatabaseWrapper::AddAttachment` (lines 399-412):
a plain `INSERT INTO AttachedFiles VALUES(?, ?, ?, ?, ?, ?, ?, ?)` — not
`INSERT OR REPLACE`.  `AttachedFiles` is keyed by `(id, fileType)` (spec
section 3: "At most one attachment per (resource, content-kind) pair"; the
schema script is not among the sources), so inserting over an existing key
violates the key constraint and `Statement::Run` surfaces an error instead of
replacing the row. -/
def addAttachment (st : DatabaseState) (row : AttachedFileRow) :
    Except ErrorCode DatabaseState :=
  if st.attachedFiles.any (fun a => a.id == row.id && a.fileType == row.fileType) then
    .error .SQLiteConstraint
  else
    .ok { st with attachedFiles := st.attachedFiles ++ [row] }

/-- `DatabaseWrapper::DeleteAttachment` (lines 415-422). -/
def deleteAttachment (st : DatabaseState) (id fileType : Nat) : DatabaseState :=
  { st with attachedFiles :=
      st.attachedFiles.filter (fun a => !(a.id == id && a.fileType == fileType)) }

/-- `DatabaseWrapper::LookupAttachment` (lines 441-465). -/
def lookupAttachment (st : DatabaseState) (id fileType : Nat) :
    Option AttachedFileRow :=
  st.attachedFiles.find? (fun a => a.id == id && a.fileType == fileType)

/-- `DatabaseWrapper::SetMainDicomTag` (lines 481-495): routed by the static
classification `DicomTag::IsIdentifier` (defined in `Core/DicomFormat`, not
among the sources, hence taken as a parameter) to a plain
`INSERT INTO DicomIdentifiers VALUES(?, ?, ?, ?)` or
`INSERT INTO MainDicomTags VALUES(?, ?, ?, ?)`.  Both tables are keyed by
`(id, tagGroup, tagElement)` (spec section 3: "keyed by (resource id, tag
group, tag element) → string value"), so, as for `AddAttachment`, inserting
over an existing key surfaces a constraint error instead of replacing. -/
def setMainDicomTag (isIdentifier : DicomTag → Bool) (st : DatabaseState)
    (id : Nat) (tag : DicomTag) (value : String) : Except ErrorCode DatabaseState :=
  let row : TagRow :=
    { id := id, tagGroup := tag.group, tagElement := tag.element, value := value }
  if isIdentifier tag then
    if st.dicomIdentifiers.any (fun t =>
        t.id == id && t.tagGroup == tag.group && t.tagElement == tag.element) then
      .error .SQLiteConstraint
    else
      .ok { st with dicomIdentifiers := st.dicomIdentifiers ++ [row] }
  else
    if st.mainDicomTags.any (fun t =>
        t.id == id && t.tagGroup == tag.group && t.tagElement == tag.element) then
      .error .SQLiteConstraint
    else
      .ok { st with mainDicomTags := st.mainDicomTags ++ [row] }

/-- `DatabaseWrapper::LookupIdentifier` two-argument form (lines 944-966):
throws `ParameterOutOfRange` when the tag is not classified as an identifier,
else `SELECT id FROM DicomIdentifiers WHERE tagGroup=? AND tagElement=? and
value=?`. -/
def lookupIdentifierTag (isIdentifier : DicomTag → Bool) (st : DatabaseState)
    (tag : DicomTag) (value : String) : Except ErrorCode (List Nat) :=
  if !isIdentifier tag then
    .error .ParameterOutOfRange
  else
    .ok ((st.dicomIdentifiers.filter (fun t =>
      t.tagGroup == tag.group && t.tagElement == tag.element && t.value == value)).map (·.id))

/-- `DatabaseWrapper::LookupIdentifier` one-argument form (lines 969-983):
`SELECT id FROM DicomIdentifiers WHERE value=?`; no throw path. -/
def lookupIdentifierValue (st : DatabaseState) (value : String) : List Nat :=
  (st.dicomIdentifiers.filter (fun t => t.value == value)).map (·.id)

/-! ## Recycling queue (lines 861-925) -/

/-- `DatabaseWrapper::IsProtectedPatient` (lines 898-904):
`SELECT * FROM PatientRecyclingOrder WHERE patientId = ?` — protected iff the
query returns no row. -/
def isProtectedPatient (st : DatabaseState) (internalId : Nat) : Bool :=
  !(st.recycling.any (fun r => r.patientId == internalId))

/-- `DatabaseWrapper::SetProtectedPatient` (lines 906-925): if protecting,
`DELETE FROM PatientRecyclingOrder WHERE patientId=?`; if unprotecting and the
patient is currently protected (no entry), `INSERT INTO PatientRecyclingOrder
VALUES(NULL, ?)` with a fresh auto-incremented `seq`; otherwise nothing. -/
def setProtectedPatient (st : DatabaseState) (internalId : Nat)
    (isProtected : Bool) : DatabaseState :=
  if isProtected then
    { st with recycling := st.recycling.filter (fun r => !(r.patientId == internalId)) }
  else if isProtectedPatient st internalId then
    { st with
      recycling := st.recycling ++ [{ seq := st.nextRecyclingSeq, patientId := internalId }]
      nextRecyclingSeq := st.nextRecyclingSeq + 1 }
  else
    st

/-- `DatabaseWrapper::SelectPatientToRecycle` (lines 861-876):
`SELECT patientId FROM PatientRecyclingOrder ORDER BY seq ASC LIMIT 1`. -/
def selectPatientToRecycle (st : DatabaseState) : Option Nat :=
  ((sortBySeq (·.seq) st.recycling).head?).map (·.patientId)

/-- `DatabaseWrapper::SelectPatientToRecycle` with an id to avoid
(lines 878-896): `... WHERE patientId != ? ORDER BY seq ASC LIMIT 1`. -/
def selectPatientToRecycleAvoid (st : DatabaseState) (patientIdToAvoid : Nat) :
    Option Nat :=
  ((sortBySeq (·.seq) (st.recycling.filter (fun r =>
    !(r.patientId == patientIdToAvoid)))).head?).map (·.patientId)

/-! ## Audit logs and cursor pagination (lines 573-694) -/

/-- `DatabaseWrapper::LogChange` (lines 573-582):
`INSERT INTO Changes VALUES(NULL, ?, ?, ?, ?)` with a fresh `seq`. -/
def logChange (st : DatabaseState) (changeType internalId : Nat)
    (resourceType : ResourceType) (date : String) : DatabaseState :=
  { st with
    changes := st.changes ++
      [{ seq := st.nextChangeSeq, changeType := changeType,
         internalId := internalId, resourceType := resourceType, date := date }]
    nextChangeSeq := st.nextChangeSeq + 1 }

/-- `DatabaseWrapper::LogExportedResource` (lines 628-642). -/
def logExportedResource (st : DatabaseState)
    (row : Nat → ExportedRow) : DatabaseState :=
  { st with
    exportedResources := st.exportedResources ++ [row st.nextExportedSeq]
    nextExportedSeq := st.nextExportedSeq + 1 }

/-- The row count that SQLite applies for `LIMIT ?` when the C++ binds
`maxResults + 1` computed in `uint32_t` through `BindInt(int)`:
the sum wraps modulo `2^32`; the resulting bit pattern is read as a signed
32-bit `int`; SQLite treats a negative `LIMIT` as "no limit" (`none` here) and
a non-negative one as a row cap. -/
def sqliteLimitRows (maxResults : Nat) : Option Nat :=
  let u := (maxResults + 1) % 4294967296
  if u < 2147483648 then some u else none

/-- Apply a `LIMIT` clause. -/
def applyLimit (lim : Option Nat) (l : List α) : List α :=
  match lim with
  | some n => l.take n
  | none => l

/-- The result set of `SELECT * FROM Changes WHERE seq>? ORDER BY seq LIMIT ?`
(line 614), before the wrapping loop. -/
def changesQuery (st : DatabaseState) (since maxResults : Nat) : List ChangeRow :=
  applyLimit (sqliteLimitRows maxResults)
    (sortBySeq (·.seq) (st.changes.filter (fun c => since < c.seq)))

/-- The loop body of `DatabaseWrapper::GetChangesInternal` (lines 585-606):
consume up to `maxResults` rows of the statement's result set, resolving each
row's public id at read time via `GetPublicId` (which throws
`UnknownResource` for a deleted resource); return the records built plus the
rows left unconsumed in the statement. -/
def changesLoop (resources : List ResourceRow) :
    Nat → List ChangeRow → Except ErrorCode (List ServerIndexChange × List ChangeRow)
  | 0, rows => .ok ([], rows)
  | _ + 1, [] => .ok ([], [])
  | m + 1, r :: rows =>
    match getPublicId resources r.internalId with
    | .error e => .error e
    | .ok publicId =>
      match changesLoop resources m rows with
      | .error e => .error e
      | .ok (target, rest) =>
        .ok ({ seq := r.seq, changeType := r.changeType,
               resourceType := r.resourceType, publicId := publicId,
               date := r.date } :: target, rest)

/-- `DatabaseWrapper::GetChangesInternal` (lines 585-606) applied to a result
set: after the loop, `done = !(target.size() == maxResults && s.Step())`,
where the extra `Step` succeeds exactly when unconsumed rows remain. -/
def getChangesFromRows (resources : List ResourceRow) (rows : List ChangeRow)
    (maxResults : Nat) : Except ErrorCode (List ServerIndexChange × Bool) :=
  match changesLoop resources maxResults rows with
  | .error e => .error e
  | .ok (target, rest) =>
    .ok (target, !(target.length == maxResults && !rest.isEmpty))

/-- `DatabaseWrapper::GetChanges` (lines 609-618). -/
def getChanges (st : DatabaseState) (since maxResults : Nat) :
    Except ErrorCode (List ServerIndexChange × Bool) :=
  getChangesFromRows st.resources (changesQuery st since maxResults) maxResults

/-- `DatabaseWrapper::GetLastChange` (lines 620-625):
`SELECT * FROM Changes ORDER BY seq DESC LIMIT 1` fed to the same loop with
`maxResults = 1` (the `done` flag is ignored by the caller). -/
def getLastChange (st : DatabaseState) :
    Except ErrorCode (List ServerIndexChange × Bool) :=
  getChangesFromRows st.resources ((sortBySeq (·.seq) st.changes).reverse.take 1) 1

/-- The result set of `SELECT * FROM ExportedResources WHERE seq>? ORDER BY
seq LIMIT ?` (line 681). -/
def exportedQuery (st : DatabaseState) (since maxResults : Nat) : List ExportedRow :=
  applyLimit (sqliteLimitRows maxResults)
    (sortBySeq (·.seq) (st.exportedResources.filter (fun c => since < c.seq)))

/-- `DatabaseWrapper::GetExportedResourcesInternal` (lines 645-672) applied to
a result set: no read-time join, otherwise the same loop and `done` flag. -/
def getExportedFromRows (rows : List ExportedRow) (maxResults : Nat) :
    List ExportedRow × Bool :=
  let target := rows.take maxResults
  (target, !(target.length == maxResults && !(rows.drop maxResults).isEmpty))

/-- `DatabaseWrapper::GetExportedResources` (lines 675-685). -/
def getExportedResources (st : DatabaseState) (since maxResults : Nat) :
    List ExportedRow × Bool :=
  getExportedFromRows (exportedQuery st since maxResults) maxResults

/-! ## Schema lifecycle (lines 745-835) -/

/-- The two migration scripts, `UPGRADE_DATABASE_3_TO_4` and
`UPGRADE_DATABASE_4_TO_5`, each run by `UpgradeDatabase` (lines 745-753) as
one transaction. -/
inductive MigrationScript
  | upgrade3to4
  | upgrade4to5
deriving DecidableEq, Repr

/-- Modelled from the spec: `ORTHANC_DATABASE_VERSION` is defined in
`DatabaseWrapper.h`, which is not among the sources; per the spec the
"single hard-coded current schema version" is 5 (the 4-to-5 migration is the
last one and "if (now) 4, run the 4→5 script and advance to 5"). -/
def ORTHANC_DATABASE_VERSION : Nat := 5

/-- Decimal parsing helper for `lexicalCastUInt`. -/
def parseDigitsAux : List Char → Nat → Option Nat
  | [], acc => some acc
  | c :: t, acc =>
    if c.isDigit then parseDigitsAux t (acc * 10 + (c.toNat - 48)) else none

/-- `boost::lexical_cast<unsigned int>`: a non-empty decimal digit string
whose value fits in an `unsigned int` (below `2^32`); anything else throws
`bad_lexical_cast` (`none` here). -/
def lexicalCastUInt (s : String) : Option Nat :=
  match s.data with
  | [] => none
  | cs =>
    match parseDigitsAux cs 0 with
    | none => none
    | some n => if n < 4294967296 then some n else none

/-- The version check and migration part of `DatabaseWrapper::Open`
(lines 786-831), mirroring its control flow: parse the stored version
(`bad_lexical_cast` is caught and leads to `IncompatibleDatabaseVersion`);
record `ok` for the compatible set {3, 4, 5}; run the 3→4 then the 4→5
migration as applicable; then the sanity check `ORTHANC_DATABASE_VERSION != v`
throws `InternalError` — note it throws from inside the `try` block, and the
`catch` only catches `bad_lexical_cast`, so it fires before the `if (!ok)`
throw of `IncompatibleDatabaseVersion` is ever reached.  Returns the outcome
together with the list of migration scripts executed, in order. -/
def openVersionCheck (version : String) :
    Except ErrorCode Unit × List MigrationScript :=
  match lexicalCastUInt version with
  | none => (.error .IncompatibleDatabaseVersion, [])
  | some v0 =>
    let ok : Bool := v0 == 3 || v0 == 4 || v0 == 5
    let step1 : Nat × List MigrationScript :=
      if v0 == 3 then (4, [MigrationScript.upgrade3to4]) else (v0, [])
    let step2 : Nat × List MigrationScript :=
      if step1.1 == 4 then (5, step1.2 ++ [MigrationScript.upgrade4to5]) else step1
    if !(ORTHANC_DATABASE_VERSION == step2.1) then
      (.error .InternalError, step2.2)
    else if !ok then
      (.error .IncompatibleDatabaseVersion, step2.2)
    else
      (.ok (), step2.2)

/-! ## Cascading delete and listener signalling (lines 125-186, 328-342) -/

/-- Modelled from the spec: the numeric value of `ChangeType_Deleted`
(`Core/Enumerations.h` is not among the sources); the exact value is
irrelevant to the claims, only that deletion signals carry this kind. -/
def ChangeType_Deleted : Nat := 5

/-- `Internals::SignalRemainingAncestor::Compute` (lines 153-167): the
single-slot accumulator step.  A candidate replaces the slot when the slot is
empty (`!hasRemainingAncestor_`) or when the recorded kind is greater than or
equal to the candidate's (`remainingType_ >= context.GetIntValue(1)`). -/
def signalRemainingAncestorCompute (acc : Option (String × ResourceType))
    (publicId : String) (type : ResourceType) : Option (String × ResourceType) :=
  match acc with
  | none => some (publicId, type)
  | some (p, k) =>
    if type.toNat ≤ k.toNat then some (publicId, type) else some (p, k)

/-- The accumulator value after one `DeleteResource` call whose cascade
produced the given ancestor reports, in order: `Reset()` empties the slot at
the start of the call (line 330), then `Compute` runs once per report. -/
def remainingAncestorSignal (reports : List (String × ResourceType)) :
    Option (String × ResourceType) :=
  reports.foldl (fun acc r => signalRemainingAncestorCompute acc r.1 r.2) none

/-- The `SignalRemainingAncestor` calls emitted at the end of
`DeleteResource` (lines 336-341): one call when the slot is filled, none
otherwise. -/
def remainingAncestorEmissions (reports : List (String × ResourceType)) :
    List Signal :=
  (remainingAncestorSignal reports).toList.map (fun pk =>
    Signal.remainingAncestor pk.2 pk.1)

/-- The internal ids of the children of `id` in the `Resources` table. -/
def childrenIds (resources : List ResourceRow) (id : Nat) : List Nat :=
  (resources.filter (fun r => r.parentId == some id)).map (·.internalId)

/-- The subtree rooted at `id`, computed with fuel (the resource hierarchy has
at most four levels; `resources.length` is always enough fuel). -/
def subtreeIds (resources : List ResourceRow) : Nat → Nat → List Nat
  | 0, id => [id]
  | fuel + 1, id => id :: (childrenIds resources id).flatMap (subtreeIds resources fuel)

/-- Modelled from the spec: the cascade rules of the schema script
`PREPARE_DATABASE` (not among the sources) remove, in one statement, the
resource row and "all descendant resources, their attachments, and their
metadata", firing one `SignalFileDeleted` per attachment row removed, one
`SignalChange(Deleted, …)` per resource row removed, and one
surviving-ancestor report per removed resource whose parent survives.
Returns the new state, those listener signals, and the ancestor reports (the
reports feed the accumulator of `remainingAncestorSignal`, which is the part
implemented in DatabaseWrapper.cpp itself). -/
def cascadeDelete (st : DatabaseState) (id : Nat) :
    DatabaseState × List Signal × List (String × ResourceType) :=
  if st.resources.any (fun r => r.internalId == id) then
    let del := subtreeIds st.resources st.resources.length id
    let isDel := fun i => del.contains i
    let delRes := st.resources.filter (fun r => isDel r.internalId)
    let survivors := st.resources.filter (fun r => !(isDel r.internalId))
    let delFiles := st.attachedFiles.filter (fun a => isDel a.id)
    let st' :=
      { st with
        resources := survivors
        attachedFiles := st.attachedFiles.filter (fun a => !(isDel a.id))
        metadata := st.metadata.filter (fun m => !(isDel m.id))
        mainDicomTags := st.mainDicomTags.filter (fun t => !(isDel t.id))
        dicomIdentifiers := st.dicomIdentifiers.filter (fun t => !(isDel t.id))
        recycling := st.recycling.filter (fun r => !(isDel r.patientId)) }
    let fileSignals := delFiles.map Signal.fileDeleted
    let resSignals := delRes.map (fun r =>
      Signal.change ChangeType_Deleted r.resourceType r.publicId)
    let reports := delRes.filterMap (fun r =>
      r.parentId.bind (fun p =>
        (survivors.find? (fun q => q.internalId == p)).map (fun q =>
          (q.publicId, q.resourceType))))
    (st', fileSignals ++ resSignals, reports)
  else
    (st, [], [])

/-- `DatabaseWrapper::DeleteResource` (lines 328-342): reset the accumulator,
run the cascading `DELETE FROM Resources WHERE internalId=?`, then make the
single `SignalRemainingAncestor` call if the accumulator was filled.  Returns
the new state and every listener call made during the call, the
`SignalRemainingAncestor` call last. -/
def deleteResource (st : DatabaseState) (id : Nat) : DatabaseState × List Signal :=
  let (st', sigs, reports) := cascadeDelete st id
  (st', sigs ++ remainingAncestorEmissions reports)

/-! ## Derived definitions used by the statements -/

/-- Recognizes a `SignalRemainingAncestor` listener call. -/
def isRemainingAncestorSignal : Signal → Bool
  | .remainingAncestor _ _ => true
  | _ => false

/-- Spec-side reduction for the "topmost surviving ancestor": the element of
the report list whose kind is minimal, the most recently reported one winning
ties.  Written from the spec's words, to be compared with the source-side
accumulator `remainingAncestorSignal`. -/
def topmostAncestor : List (String × ResourceType) → Option (String × ResourceType)
  | [] => none
  | r :: rest =>
    match topmostAncestor rest with
    | none => some r
    | some s => if r.2.toNat < s.2.toNat then some r else some s

/-- The change record built for a row whose resource exists: the stored
columns plus the public id resolved through the `Resources` table. -/
def resolveChange (resources : List ResourceRow) (r : ChangeRow) : ServerIndexChange :=
  { seq := r.seq, changeType := r.changeType, resourceType := r.resourceType,
    publicId := (((resources.find? (fun q => q.internalId == r.internalId))).map
      (·.publicId)).getD ""
    date := r.date }

/-! ## Concrete states for witnesses and counterexamples -/

/-- A freshly created store: all tables empty, all auto-increment counters
at 1 (SQLite rowids start at 1). -/
def emptyState : DatabaseState :=
  { resources := [], attachedFiles := [], metadata := [], mainDicomTags := []
    dicomIdentifiers := [], changes := [], exportedResources := [], recycling := []
    globalProperties := [], nextInternalId := 1, nextChangeSeq := 1
    nextExportedSeq := 1, nextRecyclingSeq := 1 }

/-- A store holding one attachment, one identifier-tag row and one
general-tag row for resource 1. -/
def upsertState : DatabaseState :=
  { emptyState with
    attachedFiles := [{ id := 1, fileType := 1, uuid := "uuidA",
                        compressedSize := 10, uncompressedSize := 20,
                        compressionType := 0, uncompressedMD5 := "m1",
                        compressedMD5 := "m2" }]
    dicomIdentifiers := [{ id := 1, tagGroup := 16, tagElement := 32, value := "v1" }]
    mainDicomTags := [{ id := 1, tagGroup := 8, tagElement := 24, value := "w1" }] }

/-- A store with one patient resource and one change record for it. -/
def oneChangeState : DatabaseState :=
  { emptyState with
    resources := [{ internalId := 1, resourceType := .Patient,
                    publicId := "p", parentId := none }]
    changes := [{ seq := 1, changeType := 1, internalId := 1,
                  resourceType := .Patient, date := "d1" }]
    nextInternalId := 2, nextChangeSeq := 2 }

/-- A store with one patient, two change records and one exported record. -/
def paginationState : DatabaseState :=
  { oneChangeState with
    changes := oneChangeState.changes ++
      [{ seq := 2, changeType := 2, internalId := 1,
         resourceType := .Patient, date := "d2" }]
    exportedResources := [{ seq := 1, resourceType := .Patient, publicId := "p",
                            modality := "m", patientId := "pid",
                            studyInstanceUid := "st", seriesInstanceUid := "se",
                            sopInstanceUid := "so", date := "d" }]
    nextChangeSeq := 3, nextExportedSeq := 2 }

/-- A store holding a change record whose resource no longer exists. -/
def danglingChangeState : DatabaseState :=
  { emptyState with
    changes := [{ seq := 1, changeType := 1, internalId := 7,
                  resourceType := .Series, date := "d" }]
    nextChangeSeq := 2 }

/-- A store whose recycling queue holds patients 10 then 20. -/
def recyclingState : DatabaseState :=
  { emptyState with
    recycling := [{ seq := 1, patientId := 10 }, { seq := 2, patientId := 20 }]
    nextRecyclingSeq := 3 }

/-! ## General helper lemmas -/

theorem find?_append_of_all_neg (p : α → Bool) (l₁ l₂ : List α)
    (h : ∀ x ∈ l₁, p x = false) :
    (l₁ ++ l₂).find? p = l₂.find? p := by
  induction l₁ with
  | nil => rfl
  | cons a t ih =>
    rw [List.cons_append, List.find?_cons_of_neg _ (by simp [h a (List.mem_cons_self a t)]),
      ih (fun x hx => h x (List.mem_cons_of_mem _ hx))]

theorem getPublicId_error_of_missing (resources : List ResourceRow) (id : Nat)
    (h : ∀ r ∈ resources, r.internalId ≠ id) :
    getPublicId resources id = .error .UnknownResource := by
  unfold getPublicId
  rw [List.find?_eq_none.2 (by simpa using h)]

/-! ## Claim C5 -/

/-- Claim C5: calling `DeleteResource` with an id that has no row in the
`Resources` table returns normally, leaves the store unchanged, and makes no
`SignalFileDeleted`, `SignalChange` or `SignalRemainingAncestor` call. -/
theorem c5_delete_nonexistent_is_noop (st : DatabaseState) (id : Nat)
    (h : st.resources.any (fun r => r.internalId == id) = false) :
    deleteResource st id = (st, []) := by
  unfold deleteResource cascadeDelete
  simp [h, remainingAncestorEmissions, remainingAncestorSignal]

/-- C5 witness: deleting id 5 from the fresh store is a no-op. -/
theorem c5_delete_nonexistent_is_noop_witness :
    (emptyState.resources.any (fun r => r.internalId == 5) = false) ∧
    deleteResource emptyState 5 = (emptyState, []) :=
  ⟨by decide, c5_delete_nonexistent_is_noop emptyState 5 (by decide)⟩

/-! ## Claim C9 -/

/-- Claim C9: after a successful `CreateResource(publicId, kind)` returning
`internalId`, `LookupResource(publicId)` succeeds and returns exactly that
internal id and kind, and the created row has a null parent. -/
theorem c9_create_then_lookup (st : DatabaseState) (publicId : String)
    (type : ResourceType) (id : Nat) (st' : DatabaseState)
    (h : createResource st publicId type = .ok (id, st')) :
    lookupResource st' publicId = some (id, type) ∧
    st'.resources.find? (fun r => r.publicId == publicId) =
      some { internalId := id, resourceType := type, publicId := publicId,
             parentId := none } := by
  unfold createResource at h
  by_cases hdup : st.resources.any (fun r => r.publicId == publicId)
  · rw [if_pos hdup] at h
    exact absurd h (by simp)
  · rw [if_neg hdup] at h
    have hfresh : ∀ r ∈ st.resources, (r.publicId == publicId) = false :=
      fun r hr => Bool.eq_false_iff.mpr
        (List.any_eq_false.1 (Bool.eq_false_iff.mpr hdup) r hr)
    rw [Except.ok.injEq, Prod.mk.injEq] at h
    obtain ⟨hid, hst⟩ := h
    subst hid; subst hst
    have hfind :
        (st.resources ++
          [{ internalId := st.nextInternalId, resourceType := type,
             publicId := publicId, parentId := none : ResourceRow }]).find?
          (fun r => r.publicId == publicId) =
        some { internalId := st.nextInternalId, resourceType := type,
               publicId := publicId, parentId := none } := by
      rw [find?_append_of_all_neg _ _ _ hfresh]
      exact List.find?_cons_of_pos _ (by simp)
    exact ⟨by simp [lookupResource, hfind], hfind⟩

/-- C9 witness: creating "a" in the fresh store yields internal id 1 and a
parentless patient row found again by `LookupResource`. -/
theorem c9_create_then_lookup_witness :
    createResource emptyState "a" .Patient = .ok (1,
      { emptyState with
        resources := [{ internalId := 1, resourceType := .Patient,
                        publicId := "a", parentId := none }]
        nextInternalId := 2 }) ∧
    lookupResource
      { emptyState with
        resources := [{ internalId := 1, resourceType := .Patient,
                        publicId := "a", parentId := none }]
        nextInternalId := 2 } "a" = some (1, .Patient) :=
  ⟨by rfl, (c9_create_then_lookup emptyState "a" .Patient 1 _ (by rfl)).1⟩

/-! ## Claim C10 -/

/-- Claim C10: for an internal id with no `Resources` row, the three
child-listing calls return an empty list and raise no error (so they cannot
distinguish a nonexistent resource from a childless one), while
`GetResourceType` and `GetPublicId` raise `UnknownResource` for the same id.
The `GetChildren` part needs the referential-integrity invariant that every
stored parent id points at an existing row (the spec's "parent exists or is
null", enforced by the schema). -/
theorem c10_children_of_missing_resource (st : DatabaseState) (id : Nat)
    (hmiss : ∀ r ∈ st.resources, r.internalId ≠ id)
    (hint : ∀ r ∈ st.resources, ∀ p, r.parentId = some p →
      ∃ q ∈ st.resources, q.internalId = p) :
    getChildren st id = [] ∧
    getChildrenPublicId st id = [] ∧
    getChildrenInternalId st id = [] ∧
    getResourceType st.resources id = .error .UnknownResource ∧
    getPublicId st.resources id = .error .UnknownResource := by
  have hb : st.resources.filter (fun b => b.internalId == id) = [] := by
    rw [List.filter_eq_nil_iff]
    intro b hbmem
    simpa using hmiss b hbmem
  have hnochild : st.resources.filter (fun r => r.parentId == some id) = [] := by
    rw [List.filter_eq_nil_iff]
    intro r hrmem hpar
    obtain ⟨q, hq, hqid⟩ := hint r hrmem id (by simpa using hpar)
    exact hmiss q hq hqid
  refine ⟨?_, ?_, ?_, ?_, ?_⟩
  · simp [getChildren, hnochild]
  · simp [getChildrenPublicId, hb]
  · simp [getChildrenInternalId, hb]
  · unfold getResourceType
    rw [List.find?_eq_none.2 (by simpa using hmiss)]
  · exact getPublicId_error_of_missing st.resources id hmiss

/-- C10 witness: id 9 is absent from a store holding one patient; all three
child listings are empty and both direct lookups fail. -/
theorem c10_children_of_missing_resource_witness :
    (∀ r ∈ oneChangeState.resources, r.internalId ≠ 9) ∧
    getChildren oneChangeState 9 = [] ∧
    getChildrenPublicId oneChangeState 9 = [] ∧
    getChildrenInternalId oneChangeState 9 = [] ∧
    getResourceType oneChangeState.resources 9 = .error .UnknownResource ∧
    getPublicId oneChangeState.resources 9 = .error .UnknownResource :=
  ⟨by decide,
    c10_children_of_missing_resource oneChangeState 9 (by decide) (by decide)⟩

/-! ## Claim C8 -/

/-- Claim C8: `LookupIdentifier(tag, value)` raises `ParameterOutOfRange`
exactly for tags not statically classified as identifiers, and otherwise
returns exactly the resource ids holding `(group, element, value)` in the
identifier-tag table; the one-argument `LookupIdentifier(value)` returns
exactly the resource ids holding `value` under any identifier tag and has no
error path. -/
theorem c8_lookup_identifier (isIdentifier : DicomTag → Bool)
    (st : DatabaseState) (tag : DicomTag) (value : String) :
    (isIdentifier tag = false →
      lookupIdentifierTag isIdentifier st tag value = .error .ParameterOutOfRange) ∧
    (isIdentifier tag = true →
      ∃ l, lookupIdentifierTag isIdentifier st tag value = .ok l ∧
        ∀ i, i ∈ l ↔ ∃ t ∈ st.dicomIdentifiers,
          t.id = i ∧ t.tagGroup = tag.group ∧ t.tagElement = tag.element ∧
          t.value = value) ∧
    (∀ i, i ∈ lookupIdentifierValue st value ↔
      ∃ t ∈ st.dicomIdentifiers, t.id = i ∧ t.value = value) := by
  refine ⟨fun h => ?_, fun h => ?_, fun i => ?_⟩
  · simp [lookupIdentifierTag, h]
  · have hok : lookupIdentifierTag isIdentifier st tag value =
        .ok ((st.dicomIdentifiers.filter (fun t =>
          t.tagGroup == tag.group && t.tagElement == tag.element &&
            t.value == value)).map (·.id)) := by
      simp [lookupIdentifierTag, h]
    refine ⟨_, hok, fun i => ?_⟩
    simp only [List.mem_map, List.mem_filter, Bool.and_eq_true, beq_iff_eq]
    constructor
    · rintro ⟨t, ⟨ht, ⟨hg, he⟩, hv⟩, hi⟩
      exact ⟨t, ht, hi, hg, he, hv⟩
    · rintro ⟨t, ht, hi, hg, he, hv⟩
      exact ⟨t, ⟨ht, ⟨hg, he⟩, hv⟩, hi⟩
  · simp only [lookupIdentifierValue, List.mem_map, List.mem_filter, beq_iff_eq]
    constructor
    · rintro ⟨t, ⟨ht, hv⟩, hi⟩
      exact ⟨t, ht, hi, hv⟩
    · rintro ⟨t, ht, hi, hv⟩
      exact ⟨t, ⟨ht, hv⟩, hi⟩

/-- C8 witness: with the classification "group 16 is an identifier", the
lookup of tag (32, 0) fails with the parameter error, the lookup of tag
(16, 32) finds resource 1, and the value-only lookup finds resource 1. -/
theorem c8_lookup_identifier_witness :
    ((fun t : DicomTag => t.group == 16) { group := 32, element := 0 } = false ∧
      lookupIdentifierTag (fun t => t.group == 16) upsertState
        { group := 32, element := 0 } "v1" = .error .ParameterOutOfRange) ∧
    ((fun t : DicomTag => t.group == 16) { group := 16, element := 32 } = true ∧
      1 ∈ lookupIdentifierValue upsertState "v1") := by
  refine ⟨⟨by decide, ?_⟩, by decide, ?_⟩
  · exact (c8_lookup_identifier (fun t => t.group == 16) upsertState
      { group := 32, element := 0 } "v1").1 (by decide)
  · exact ((c8_lookup_identifier (fun t => t.group == 16) upsertState
      { group := 16, element := 32 } "v1").2.2 1).2
      ⟨{ id := 1, tagGroup := 16, tagElement := 32, value := "v1" }, by decide, rfl, rfl⟩

/-! ## Claim C7 -/

theorem head_le_of_seqSorted (key : α → Nat) (a : α) (t : List α)
    (h : SeqSorted key (a :: t)) : ∀ x ∈ a :: t, key a ≤ key x := by
  intro x hx
  rcases List.mem_cons.1 hx with rfl | hx
  · exact Nat.le_refl _
  · exact Nat.le_of_lt ((List.pairwise_cons.1 h).1 x hx)

theorem head_min_of_seqSorted (key : α → Nat) (l : List α) (a : α)
    (hs : SeqSorted key l) (h : l.head? = some a) :
    a ∈ l ∧ ∀ x ∈ l, key a ≤ key x := by
  cases l with
  | nil => exact absurd h (by simp)
  | cons b t =>
    simp only [List.head?_cons, Option.some.injEq] at h
    subst h
    exact ⟨List.mem_cons_self _ _, head_le_of_seqSorted key b t hs⟩

/-- Claim C7: `IsProtectedPatient(id)` holds exactly when the recycling table
has no entry for `id`; protecting removes any entry and is idempotent;
unprotecting inserts only when no entry exists, so a second unprotect call is
a no-op and the entry keeps its insertion-order position;
`SelectPatientToRecycle` returns the entry with minimum insertion sequence
(none when the table is empty), and the exclude-id variant the
minimum-sequence entry among the other ids. -/
theorem c7_recycling_queue (st : DatabaseState) (id avoid : Nat) :
    (isProtectedPatient st id = true ↔ ∀ r ∈ st.recycling, r.patientId ≠ id) ∧
    ((setProtectedPatient st id true).recycling =
      st.recycling.filter (fun r => !(r.patientId == id))) ∧
    (setProtectedPatient (setProtectedPatient st id true) id true =
      setProtectedPatient st id true) ∧
    (isProtectedPatient st id = false → setProtectedPatient st id false = st) ∧
    (setProtectedPatient (setProtectedPatient st id false) id false =
      setProtectedPatient st id false) ∧
    (SeqSorted (fun r : RecyclingRow => r.seq) st.recycling →
      (selectPatientToRecycle st = none ↔ st.recycling = []) ∧
      (∀ p, selectPatientToRecycle st = some p →
        ∃ r ∈ st.recycling, r.patientId = p ∧
          ∀ r' ∈ st.recycling, r.seq ≤ r'.seq) ∧
      (selectPatientToRecycleAvoid st avoid = none ↔
        st.recycling.filter (fun r => !(r.patientId == avoid)) = []) ∧
      (∀ p, selectPatientToRecycleAvoid st avoid = some p →
        p ≠ avoid ∧ ∃ r ∈ st.recycling, r.patientId = p ∧
          ∀ r' ∈ st.recycling, r'.patientId ≠ avoid → r.seq ≤ r'.seq)) := by
  refine ⟨?_, ?_, ?_, ?_, ?_, ?_⟩
  · rw [isProtectedPatient, Bool.not_eq_eq_eq_not, Bool.not_true, List.any_eq_false]
    simp
  · simp [setProtectedPatient]
  · simp [setProtectedPatient, List.filter_filter]
  · intro h
    rw [setProtectedPatient, if_neg (by simp), if_neg (by simp [h])]
  · by_cases h : isProtectedPatient st id = true
    · have h1 : setProtectedPatient st id false =
          { st with
            recycling := st.recycling ++ [{ seq := st.nextRecyclingSeq, patientId := id }]
            nextRecyclingSeq := st.nextRecyclingSeq + 1 } := by
        rw [setProtectedPatient, if_neg (by simp), if_pos h]
      have h2 : isProtectedPatient
          { st with
            recycling := st.recycling ++ [{ seq := st.nextRecyclingSeq, patientId := id }]
            nextRecyclingSeq := st.nextRecyclingSeq + 1 } id = false := by
        simp [isProtectedPatient]
      rw [h1, setProtectedPatient, if_neg (by simp), if_neg (by simp [h2])]
    · have h1 : setProtectedPatient st id false = st := by
        rw [setProtectedPatient, if_neg (by simp), if_neg h]
      rw [h1, h1]
  · intro hsorted
    have hsortEq := sortBySeq_eq_self (fun r : RecyclingRow => r.seq) st.recycling hsorted
    have hsortedF : SeqSorted (fun r : RecyclingRow => r.seq)
        (st.recycling.filter (fun r => !(r.patientId == avoid))) :=
      List.Pairwise.sublist (List.filter_sublist _) hsorted
    have hsortEqF := sortBySeq_eq_self (fun r : RecyclingRow => r.seq) _ hsortedF
    refine ⟨?_, ?_, ?_, ?_⟩
    · rw [selectPatientToRecycle, hsortEq]
      cases st.recycling <;> simp
    · intro p hp
      rw [selectPatientToRecycle, hsortEq] at hp
      obtain ⟨a, ha, hpa⟩ := Option.map_eq_some'.1 hp
      obtain ⟨hmem, hmin⟩ := head_min_of_seqSorted _ _ a hsorted ha
      exact ⟨a, hmem, hpa, hmin⟩
    · rw [selectPatientToRecycleAvoid, hsortEqF]
      cases st.recycling.filter (fun r => !(r.patientId == avoid)) <;> simp
    · intro p hp
      rw [selectPatientToRecycleAvoid, hsortEqF] at hp
      obtain ⟨a, ha, hpa⟩ := Option.map_eq_some'.1 hp
      obtain ⟨hmemF, hminF⟩ := head_min_of_seqSorted _ _ a hsortedF ha
      have hamem := List.mem_filter.1 hmemF
      have hnav : ¬(a.patientId = avoid) := by simpa using hamem.2
      refine ⟨fun hpav => hnav (hpa.trans hpav), a, hamem.1, hpa, ?_⟩
      intro r' hr' hr'av
      exact hminF r' (List.mem_filter.2 ⟨hr', by simpa using hr'av⟩)

/-- C7 witness: in a queue holding patients 10 then 20, the queue is sorted,
patient 99 has no entry so unprotecting twice equals unprotecting once, and
the selected recycling candidate is an entry of minimal sequence. -/
theorem c7_recycling_queue_witness :
    SeqSorted (fun r : RecyclingRow => r.seq) recyclingState.recycling ∧
    isProtectedPatient recyclingState 10 = false ∧
    setProtectedPatient recyclingState 10 false = recyclingState ∧
    (∀ p, selectPatientToRecycle recyclingState = some p →
      ∃ r ∈ recyclingState.recycling, r.patientId = p ∧
        ∀ r' ∈ recyclingState.recycling, r.seq ≤ r'.seq) :=
  ⟨by decide, by decide,
    (c7_recycling_queue recyclingState 10 20).2.2.2.1 (by decide),
    ((c7_recycling_queue recyclingState 10 20).2.2.2.2.2 (by decide)).2.1⟩

/-! ## Claim C2 -/

/-- C2 counterexample: `AddAttachment` for a `(resource, content-kind)` pair
that already has an attachment does not replace the stored record — its plain
`INSERT` hits the table key and fails — and likewise `SetMainDicomTag` for an
already-set `(id, group, element)`; the claim said both upsert the way
`SetMetadata` does. -/
theorem c2_upsert_counterexample :
    addAttachment upsertState
      { id := 1, fileType := 1, uuid := "uuidB", compressedSize := 11,
        uncompressedSize := 21, compressionType := 0,
        uncompressedMD5 := "m3", compressedMD5 := "m4" } =
      .error .SQLiteConstraint ∧
    setMainDicomTag (fun t => t.group == 16) upsertState 1
      { group := 16, element := 32 } "v2" = .error .SQLiteConstraint ∧
    setMainDicomTag (fun t => t.group == 16) upsertState 1
      { group := 8, element := 24 } "w2" = .error .SQLiteConstraint :=
  ⟨rfl, rfl, rfl⟩

/-- Claim C2, amended: `SetMetadata` (an `INSERT OR REPLACE`) is an upsert —
setting an existing `(id, type)` key replaces the stored value, leaving one
row for the key — but `AddAttachment` and `SetMainDicomTag` issue plain
`INSERT`s, so for a key that already has a row they fail with a backend
constraint error instead of replacing it. -/
theorem c2_set_operations_amended (st : DatabaseState) (row : AttachedFileRow)
    (isIdentifier : DicomTag → Bool) (tagI tagG : DicomTag)
    (idI idG id type : Nat) (vI vG v : String)
    (hA : st.attachedFiles.any
      (fun a => a.id == row.id && a.fileType == row.fileType) = true)
    (hiI : isIdentifier tagI = true)
    (hI : st.dicomIdentifiers.any (fun t => t.id == idI &&
      t.tagGroup == tagI.group && t.tagElement == tagI.element) = true)
    (hiG : isIdentifier tagG = false)
    (hG : st.mainDicomTags.any (fun t => t.id == idG &&
      t.tagGroup == tagG.group && t.tagElement == tagG.element) = true) :
    addAttachment st row = .error .SQLiteConstraint ∧
    setMainDicomTag isIdentifier st idI tagI vI = .error .SQLiteConstraint ∧
    setMainDicomTag isIdentifier st idG tagG vG = .error .SQLiteConstraint ∧
    lookupMetadata (setMetadata st id type v) id type = some v ∧
    (setMetadata st id type v).metadata.filter
      (fun m => m.id == id && m.type == type) =
      [{ id := id, type := type, value := v }] := by
  refine ⟨?_, ?_, ?_, ?_, ?_⟩
  · rw [addAttachment, if_pos hA]
  · rw [setMainDicomTag]
    simp only [hiI, if_true, if_pos hI]
  · rw [setMainDicomTag]
    simp only [hiG, Bool.false_eq_true, if_false, if_pos hG]
  · rw [lookupMetadata, setMetadata]
    rw [find?_append_of_all_neg _ _ _ (fun m hm => by
      have hneg := (List.mem_filter.1 hm).2
      cases hb : (m.id == id && m.type == type) with
      | false => rfl
      | true => rw [hb] at hneg; exact absurd hneg (by decide))]
    rw [List.find?_cons_of_pos _ (by simp)]
    rfl
  · rw [setMetadata]
    simp only [List.filter_append, List.filter_filter]
    rw [List.filter_eq_nil_iff.2 (fun m _ => by simp [Bool.and_comm]),
      List.nil_append]
    simp

/-- C2 amended witness: in a store holding an attachment `(1, 1)`, an
identifier row `(1, 16, 32)` and a general-tag row `(1, 8, 24)`, both
re-insertions fail while re-setting metadata replaces the value. -/
theorem c2_set_operations_amended_witness :
    (upsertState.attachedFiles.any (fun a => a.id == 1 && a.fileType == 1) = true) ∧
    addAttachment upsertState
      { id := 1, fileType := 1, uuid := "uuidC", compressedSize := 1,
        uncompressedSize := 2, compressionType := 0,
        uncompressedMD5 := "x", compressedMD5 := "y" } =
      .error .SQLiteConstraint ∧
    lookupMetadata (setMetadata upsertState 1 4 "newValue") 1 4 = some "newValue" :=
  ⟨by decide,
    (c2_set_operations_amended upsertState
      { id := 1, fileType := 1, uuid := "uuidC", compressedSize := 1,
        uncompressedSize := 2, compressionType := 0,
        uncompressedMD5 := "x", compressedMD5 := "y" }
      (fun t => t.group == 16) { group := 16, element := 32 }
      { group := 8, element := 24 } 1 1 1 4 "a" "b" "newValue"
      (by decide) (by decide) (by decide) (by decide) (by decide)).1,
    (c2_set_operations_amended upsertState
      { id := 1, fileType := 1, uuid := "uuidC", compressedSize := 1,
        uncompressedSize := 2, compressionType := 0,
        uncompressedMD5 := "x", compressedMD5 := "y" }
      (fun t => t.group == 16) { group := 16, element := 32 }
      { group := 8, element := 24 } 1 1 1 4 "a" "b" "newValue"
      (by decide) (by decide) (by decide) (by decide) (by decide)).2.2.2.1⟩

/-! ## Claim C3 -/

/-- C3 counterexample: opening a store whose stored version is the parseable
but unsupported string "99" raises `InternalError` — the post-migration
sanity check `ORTHANC_DATABASE_VERSION != v` throws from inside the `try`
block before the `IncompatibleDatabaseVersion` throw is reached — not the
`IncompatibleDatabaseVersion` the claim requires. -/
theorem c3_version_counterexample :
    openVersionCheck "99" = (.error .InternalError, []) ∧
    ErrorCode.InternalError ≠ ErrorCode.IncompatibleDatabaseVersion :=
  ⟨rfl, by decide⟩

/-- Claim C3, amended: version "3" runs the 3→4 then the 4→5 migration,
version "4" only the 4→5 one, version "5" none, each script at most once and
in ascending order, and the result must equal the hard-coded current version
5; an unparseable stored value raises `IncompatibleDatabaseVersion`; a
parseable stored value outside {3, 4, 5} raises `InternalError` (from the
sanity check, which fires before the compatibility check); in every failure
case no migration script has run. -/
theorem c3_version_check_amended (s : String) (v : Nat) :
    (lexicalCastUInt s = none →
      openVersionCheck s = (.error .IncompatibleDatabaseVersion, [])) ∧
    (lexicalCastUInt s = some v →
      (v = 3 → openVersionCheck s =
        (.ok (), [.upgrade3to4, .upgrade4to5])) ∧
      (v = 4 → openVersionCheck s = (.ok (), [.upgrade4to5])) ∧
      (v = 5 → openVersionCheck s = (.ok (), [])) ∧
      (v ≠ 3 → v ≠ 4 → v ≠ 5 →
        openVersionCheck s = (.error .InternalError, []))) ∧
    (∀ e, (openVersionCheck s).1 = .error e → (openVersionCheck s).2 = []) := by
  rcases hparse : lexicalCastUInt s with _ | v0
  · refine ⟨fun _ => by simp [openVersionCheck, hparse], fun h => ?_, fun e _ => ?_⟩
    · exact absurd h (by simp)
    · simp [openVersionCheck, hparse]
  · refine ⟨fun h => ?_, fun h => ?_, fun e he => ?_⟩
    · exact absurd h (by simp)
    · obtain rfl := Option.some.inj h
      refine ⟨?_, ?_, ?_, ?_⟩
      · rintro rfl
        simp [openVersionCheck, hparse, ORTHANC_DATABASE_VERSION]
      · rintro rfl
        simp [openVersionCheck, hparse, ORTHANC_DATABASE_VERSION]
      · rintro rfl
        simp [openVersionCheck, hparse, ORTHANC_DATABASE_VERSION]
      · intro h3 h4 h5
        simp [openVersionCheck, hparse, ORTHANC_DATABASE_VERSION,
          h3, h4, h5, Ne.symm h5]
    · by_cases h3 : v0 = 3
      · subst h3
        simp [openVersionCheck, hparse, ORTHANC_DATABASE_VERSION] at he
      · by_cases h4 : v0 = 4
        · subst h4
          simp [openVersionCheck, hparse, ORTHANC_DATABASE_VERSION] at he
        · by_cases h5 : v0 = 5
          · subst h5
            simp [openVersionCheck, hparse, ORTHANC_DATABASE_VERSION] at he
          · simp [openVersionCheck, hparse, ORTHANC_DATABASE_VERSION,
              h3, h4, h5, Ne.symm h5]

/-- C3 amended witness: "99" parses, is outside {3,4,5}, and opening raises
`InternalError` having run no migration; "3" migrates 3→4 then 4→5. -/
theorem c3_version_check_amended_witness :
    lexicalCastUInt "99" = some 99 ∧
    openVersionCheck "99" = (.error .InternalError, []) ∧
    lexicalCastUInt "3" = some 3 ∧
    openVersionCheck "3" = (.ok (), [.upgrade3to4, .upgrade4to5]) :=
  ⟨by rfl,
    ((c3_version_check_amended "99" 99).2.1 (by rfl)).2.2.2
      (by decide) (by decide) (by decide),
    by rfl,
    ((c3_version_check_amended "3" 3).2.1 (by rfl)).1 rfl⟩

/-! ## Claim C1 -/

theorem topmostAncestor_ne_none (a : String × ResourceType)
    (t : List (String × ResourceType)) : topmostAncestor (a :: t) ≠ none := by
  rw [topmostAncestor]
  cases topmostAncestor t with
  | none => simp
  | some s => by_cases hlt : a.2.toNat < s.2.toNat <;> simp [hlt]

theorem topmostAncestor_mem (l : List (String × ResourceType))
    (r : String × ResourceType) (h : topmostAncestor l = some r) : r ∈ l := by
  induction l generalizing r with
  | nil => exact absurd h (by simp [topmostAncestor])
  | cons a t ih =>
    rw [topmostAncestor] at h
    cases ht : topmostAncestor t with
    | none =>
      simp only [ht] at h
      obtain rfl := Option.some.inj h
      exact List.mem_cons_self _ _
    | some s =>
      simp only [ht] at h
      by_cases hlt : a.2.toNat < s.2.toNat
      · rw [if_pos hlt] at h
        obtain rfl := Option.some.inj h
        exact List.mem_cons_self _ _
      · rw [if_neg hlt] at h
        obtain rfl := Option.some.inj h
        exact List.mem_cons_of_mem _ (ih _ ht)

theorem topmostAncestor_min (l : List (String × ResourceType))
    (r : String × ResourceType) (h : topmostAncestor l = some r) :
    ∀ x ∈ l, r.2.toNat ≤ x.2.toNat := by
  induction l generalizing r with
  | nil => exact absurd h (by simp [topmostAncestor])
  | cons a t ih =>
    rw [topmostAncestor] at h
    cases ht : topmostAncestor t with
    | none =>
      simp only [ht] at h
      obtain rfl := Option.some.inj h
      have ht' : t = [] := by
        cases t with
        | nil => rfl
        | cons b u => exact absurd ht (topmostAncestor_ne_none b u)
      subst ht'
      intro x hx
      rcases List.mem_cons.1 hx with rfl | hx
      · exact Nat.le_refl _
      · exact absurd hx (by simp)
    | some s =>
      simp only [ht] at h
      by_cases hlt : a.2.toNat < s.2.toNat
      · rw [if_pos hlt] at h
        obtain rfl := Option.some.inj h
        intro x hx
        rcases List.mem_cons.1 hx with rfl | hx
        · exact Nat.le_refl _
        · exact Nat.le_of_lt (Nat.lt_of_lt_of_le hlt (ih _ ht x hx))
      · rw [if_neg hlt] at h
        obtain rfl := Option.some.inj h
        intro x hx
        rcases List.mem_cons.1 hx with rfl | hx
        · exact Nat.le_of_not_lt hlt
        · exact ih _ ht x hx

theorem topmostAncestor_lastmin (l : List (String × ResourceType))
    (r : String × ResourceType) (h : topmostAncestor l = some r) :
    (l.filter (fun x => x.2 == r.2)).getLast? = some r := by
  induction l generalizing r with
  | nil => exact absurd h (by simp [topmostAncestor])
  | cons a t ih =>
    rw [topmostAncestor] at h
    cases ht : topmostAncestor t with
    | none =>
      simp only [ht] at h
      obtain rfl := Option.some.inj h
      have ht' : t = [] := by
        cases t with
        | nil => rfl
        | cons b u => exact absurd ht (topmostAncestor_ne_none b u)
      subst ht'
      simp
    | some s =>
      simp only [ht] at h
      by_cases hlt : a.2.toNat < s.2.toNat
      · rw [if_pos hlt] at h
        obtain rfl := Option.some.inj h
        have htail : t.filter (fun x => x.2 == a.2) = [] := by
          rw [List.filter_eq_nil_iff]
          intro x hx hbx
          have hxa : x.2 = a.2 := by simpa using hbx
          have hsx : s.2.toNat ≤ a.2.toNat :=
            hxa ▸ topmostAncestor_min t s ht x hx
          exact absurd hsx (Nat.not_le_of_lt hlt)
        rw [List.filter_cons_of_pos (by simp), htail]
        rfl
      · rw [if_neg hlt] at h
        obtain rfl := Option.some.inj h
        have hne : t.filter (fun x => x.2 == s.2) ≠ [] := by
          intro hnil
          have hlast := ih _ ht
          rw [hnil] at hlast
          exact absurd hlast (by simp)
        by_cases ha : (a.2 == s.2) = true
        · rw [List.filter_cons, if_pos ha]
          cases hft : t.filter (fun x => x.2 == s.2) with
          | nil => exact absurd hft hne
          | cons b u =>
            rw [List.getLast?_cons_cons, ← hft]
            exact ih _ ht
        · rw [List.filter_cons, if_neg ha]
          exact ih _ ht

theorem topmostAncestor_cons_cons (a r : String × ResourceType)
    (t : List (String × ResourceType)) :
    topmostAncestor (a :: r :: t) =
      if r.2.toNat ≤ a.2.toNat then topmostAncestor (r :: t)
      else topmostAncestor (a :: t) := by
  cases ht : topmostAncestor t with
  | none =>
    simp only [topmostAncestor, ht]
    by_cases h1 : r.2.toNat ≤ a.2.toNat <;>
      by_cases h2 : a.2.toNat < r.2.toNat <;>
      first
        | omega
        | simp [h1, h2]
  | some s =>
    simp only [topmostAncestor, ht]
    by_cases h1 : r.2.toNat ≤ a.2.toNat <;>
      by_cases h2 : r.2.toNat < s.2.toNat <;>
      by_cases h3 : a.2.toNat < s.2.toNat <;>
      by_cases h4 : a.2.toNat < r.2.toNat <;>
      first
        | omega
        | simp [h1, h2, h3, h4]

theorem foldl_compute_eq_topmost (a : String × ResourceType)
    (l : List (String × ResourceType)) :
    l.foldl (fun acc r => signalRemainingAncestorCompute acc r.1 r.2) (some a) =
    topmostAncestor (a :: l) := by
  induction l generalizing a with
  | nil => simp [topmostAncestor]
  | cons r t ih =>
    rw [List.foldl_cons]
    by_cases hle : r.2.toNat ≤ a.2.toNat
    · rw [show signalRemainingAncestorCompute (some a) r.1 r.2 = some r from by
        simp [signalRemainingAncestorCompute, hle]]
      rw [ih r, topmostAncestor_cons_cons, if_pos hle]
    · rw [show signalRemainingAncestorCompute (some a) r.1 r.2 = some a from by
        simp [signalRemainingAncestorCompute, hle]]
      rw [ih a, topmostAncestor_cons_cons, if_neg hle]

/-- The source-side accumulator equals the spec-side minimum reduction. -/
theorem remainingAncestorSignal_eq_topmost (l : List (String × ResourceType)) :
    remainingAncestorSignal l = topmostAncestor l := by
  cases l with
  | nil => rfl
  | cons a t =>
    rw [remainingAncestorSignal, List.foldl_cons]
    exact foldl_compute_eq_topmost a t

theorem cascadeDelete_signals_no_ra (st : DatabaseState) (id : Nat) :
    ((cascadeDelete st id).2.1).filter isRemainingAncestorSignal = [] := by
  rw [cascadeDelete]
  by_cases h : st.resources.any (fun r => r.internalId == id)
  · rw [if_pos h]
    simp [List.filter_append, List.filter_map, isRemainingAncestorSignal,
      Function.comp]
  · rw [if_neg h]
    rfl

theorem filter_ra_emissions (reports : List (String × ResourceType)) :
    (remainingAncestorEmissions reports).filter isRemainingAncestorSignal =
      remainingAncestorEmissions reports := by
  rw [remainingAncestorEmissions]
  cases remainingAncestorSignal reports <;> simp [isRemainingAncestorSignal]

/-- Claim C1: in every `DeleteResource` call the `SignalRemainingAncestor`
calls are exactly those produced by the single-slot accumulator over the
cascade's ancestor reports — none when no survivor is reported, and exactly
one otherwise, naming a reported ancestor of minimal kind in the
Patient&lt;Study&lt;Series&lt;Instance ordering, the most recently reported
one among those at the minimal kind (the accumulator starts empty on every
call and a candidate replaces the slot when the recorded kind is greater
than or equal to its own). -/
theorem c1_remaining_ancestor_topmost (st : DatabaseState) (id : Nat)
    (reports : List (String × ResourceType)) :
    ((deleteResource st id).2.filter isRemainingAncestorSignal =
      remainingAncestorEmissions (cascadeDelete st id).2.2) ∧
    (reports = [] → remainingAncestorEmissions reports = []) ∧
    (reports ≠ [] → ∃ p k,
      remainingAncestorEmissions reports = [Signal.remainingAncestor k p] ∧
      (p, k) ∈ reports ∧
      (∀ x ∈ reports, k.toNat ≤ x.2.toNat) ∧
      (reports.filter (fun x => x.2 == k)).getLast? = some (p, k)) := by
  refine ⟨?_, ?_, ?_⟩
  · have hdel : deleteResource st id =
        ((cascadeDelete st id).1,
          (cascadeDelete st id).2.1 ++
            remainingAncestorEmissions (cascadeDelete st id).2.2) := rfl
    rw [hdel, List.filter_append, cascadeDelete_signals_no_ra,
      filter_ra_emissions, List.nil_append]
  · rintro rfl
    rfl
  · intro hne
    have htop := remainingAncestorSignal_eq_topmost reports
    cases hsig : topmostAncestor reports with
    | none =>
      cases reports with
      | nil => exact absurd rfl hne
      | cons a t => exact absurd hsig (topmostAncestor_ne_none a t)
    | some r =>
      refine ⟨r.1, r.2, ?_, ?_, ?_, ?_⟩
      · rw [remainingAncestorEmissions, htop, hsig]
        rfl
      · simpa using topmostAncestor_mem reports r hsig
      · exact topmostAncestor_min reports r hsig
      · simpa using topmostAncestor_lastmin reports r hsig

/-- C1 witness: two reports, a Study then a Patient — the single emitted
call names the Patient, the minimal kind. -/
theorem c1_remaining_ancestor_topmost_witness :
    ([("s", ResourceType.Study), ("p", ResourceType.Patient)] ≠
      ([] : List (String × ResourceType))) ∧
    (∃ p k, remainingAncestorEmissions
        [("s", ResourceType.Study), ("p", ResourceType.Patient)] =
        [Signal.remainingAncestor k p] ∧
      (p, k) ∈ [("s", ResourceType.Study), ("p", ResourceType.Patient)] ∧
      (∀ x ∈ [("s", ResourceType.Study), ("p", ResourceType.Patient)],
        k.toNat ≤ x.2.toNat) ∧
      (([("s", ResourceType.Study), ("p", ResourceType.Patient)].filter
        (fun x => x.2 == k)).getLast? = some (p, k))) :=
  ⟨by decide,
    (c1_remaining_ancestor_topmost emptyState 0
      [("s", ResourceType.Study), ("p", ResourceType.Patient)]).2.2 (by decide)⟩

/-! ## Claim C6 -/

theorem getPublicId_error_code (resources : List ResourceRow) (id : Nat)
    (e : ErrorCode) (h : getPublicId resources id = .error e) :
    e = .UnknownResource := by
  rw [getPublicId] at h
  cases hf : resources.find? (fun r => r.internalId == id) with
  | none =>
    simp only [hf] at h
    exact (Except.error.inj h).symm
  | some r =>
    simp only [hf] at h
    exact absurd h (by simp)

theorem changesLoop_error_of_bad (resources : List ResourceRow)
    (rows : List ChangeRow) (m : Nat) (c : ChangeRow)
    (hc : c ∈ rows.take m)
    (hbad : ∀ r ∈ resources, r.internalId ≠ c.internalId) :
    changesLoop resources m rows = .error .UnknownResource := by
  induction rows generalizing m with
  | nil => exact absurd hc (by simp)
  | cons r rt ih =>
    cases m with
    | zero => exact absurd hc (by simp)
    | succ m' =>
      rw [List.take_succ_cons] at hc
      rw [changesLoop]
      cases hres : getPublicId resources r.internalId with
      | error e =>
        rw [getPublicId_error_code resources r.internalId e hres]
      | ok pid =>
        rcases List.mem_cons.1 hc with rfl | hc'
        · exact absurd hres (by
            rw [getPublicId_error_of_missing resources c.internalId hbad]
            simp)
        · rw [ih m' hc']

theorem getChangesFromRows_error_of_bad (resources : List ResourceRow)
    (rows : List ChangeRow) (m : Nat) (c : ChangeRow)
    (hc : c ∈ rows.take m)
    (hbad : ∀ r ∈ resources, r.internalId ≠ c.internalId) :
    getChangesFromRows resources rows m = .error .UnknownResource := by
  rw [getChangesFromRows, changesLoop_error_of_bad resources rows m c hc hbad]

/-- Claim C6: change records resolve their resource's public id at read
time, so a `GetChanges` window containing a record whose resource row was
deleted raises `UnknownResource` instead of returning it, and `GetLastChange`
raises likewise when the newest record's resource is gone. -/
theorem c6_read_time_resolution (st : DatabaseState) (since m : Nat)
    (c : ChangeRow) :
    (c ∈ (changesQuery st since m).take m →
      (∀ r ∈ st.resources, r.internalId ≠ c.internalId) →
      getChanges st since m = .error .UnknownResource) ∧
    (SeqSorted (fun r : ChangeRow => r.seq) st.changes →
      st.changes.getLast? = some c →
      (∀ r ∈ st.resources, r.internalId ≠ c.internalId) →
      getLastChange st = .error .UnknownResource) := by
  constructor
  · intro hc hbad
    exact getChangesFromRows_error_of_bad st.resources _ m c hc hbad
  · intro hsorted hlast hbad
    rw [getLastChange, sortBySeq_eq_self _ _ hsorted]
    have hrev : st.changes.reverse.head? = some c := by
      rw [List.head?_reverse]
      exact hlast
    have htake : st.changes.reverse.take 1 = [c] := by
      cases hrc : st.changes.reverse with
      | nil => rw [hrc] at hrev; exact absurd hrev (by simp)
      | cons b u =>
        rw [hrc] at hrev
        obtain rfl := Option.some.inj (by simpa using hrev)
        rfl
    rw [htake]
    exact getChangesFromRows_error_of_bad st.resources [c] 1 c (by simp) hbad

/-- C6 witness: the store holds one change record for resource 7, which has
no `Resources` row; both reads fail with `UnknownResource`. -/
theorem c6_read_time_resolution_witness :
    getChanges danglingChangeState 0 1 = .error .UnknownResource ∧
    getLastChange danglingChangeState = .error .UnknownResource :=
  ⟨(c6_read_time_resolution danglingChangeState 0 1
      { seq := 1, changeType := 1, internalId := 7,
        resourceType := .Series, date := "d" }).1 (by decide) (by decide),
    (c6_read_time_resolution danglingChangeState 0 1
      { seq := 1, changeType := 1, internalId := 7,
        resourceType := .Series, date := "d" }).2 (by decide) (by decide) (by decide)⟩

/-! ## Claim C4 -/

theorem take_take_succ (l : List α) (m : Nat) : (l.take (m + 1)).take m = l.take m := by
  rw [List.take_take]
  congr 1
  omega

theorem drop_nil_iff (l : List α) (m : Nat) : l.drop m = [] ↔ l.length ≤ m := by
  rw [← List.length_eq_zero, List.length_drop]
  omega

theorem drop_take_succ_nil_iff (l : List α) (m : Nat) :
    (l.take (m + 1)).drop m = [] ↔ l.length ≤ m := by
  rw [← List.length_eq_zero, List.length_drop, List.length_take]
  omega

/-- The `done` flag computed by the `GetChangesInternal` /
`GetExportedResourcesInternal` loop tail — `!(target.size() == maxResults &&
s.Step())` — equals "no more than `maxResults` matching records exist",
whenever the statement's result set `r` agrees with the full match list `l`
on the first `maxResults` rows and runs dry exactly when `l` does. -/
theorem done_flag_of (l r : List α) (m : Nat)
    (htake : r.take m = l.take m)
    (hdrop : r.drop m = [] ↔ l.length ≤ m) :
    (!((r.take m).length == m && !(r.drop m).isEmpty)) = decide (l.length ≤ m) := by
  by_cases hl : l.length ≤ m
  · rw [hdrop.2 hl]
    simp [hl]
  · have hd : r.drop m ≠ [] := fun hh => hl (hdrop.1 hh)
    have hlen : (r.take m).length = m := by
      rw [htake, List.length_take]
      omega
    rw [hlen]
    have hie : (r.drop m).isEmpty = false := by
      cases hdd : r.drop m with
      | nil => exact absurd hdd hd
      | cons x xs => rfl
    rw [hie]
    simp [hl]

theorem changesLoop_ok (resources : List ResourceRow) (rows : List ChangeRow)
    (m : Nat)
    (hres : ∀ r ∈ rows,
      resources.any (fun q => q.internalId == r.internalId) = true) :
    changesLoop resources m rows =
      .ok ((rows.take m).map (resolveChange resources), rows.drop m) := by
  induction rows generalizing m with
  | nil => cases m <;> rfl
  | cons r rt ih =>
    cases m with
    | zero => rfl
    | succ m' =>
      rw [changesLoop]
      obtain ⟨q, hq, hqid⟩ :=
        List.any_eq_true.1 (hres r (List.mem_cons_self r rt))
      obtain ⟨q', hq'⟩ : ∃ q',
          resources.find? (fun q2 => q2.internalId == r.internalId) = some q' := by
        cases hf : resources.find? (fun q2 => q2.internalId == r.internalId) with
        | none => exact absurd hqid (by simpa using List.find?_eq_none.1 hf q hq)
        | some q' => exact ⟨q', rfl⟩
      have hpub : getPublicId resources r.internalId = .ok q'.publicId := by
        rw [getPublicId]
        simp only [hq']
      rw [hpub, ih m' (fun x hx => hres x (List.mem_cons_of_mem _ hx))]
      rw [List.take_succ_cons, List.drop_succ_cons, List.map_cons]
      simp [resolveChange, hq']

/-- Claim C4, amended (it fails only at `maxResults = 4294967295`, where the
`uint32_t` computation `maxResults + 1` wraps to 0 and the statement's
`LIMIT 0` suppresses every row): for every `maxResults` below `2^32 - 1`,
`GetChanges` returns exactly the change records with sequence strictly above
`sinceSeq` in ascending order (public ids resolved through the `Resources`
table), capped at `maxResults`, with `done` true exactly when no more than
`maxResults` matching records exist — so a log holding exactly `maxResults`
matching records yields `done = true` and one holding one more yields
`done = false`; and likewise `GetExportedResources` over the export log. -/
theorem c4_pagination_amended (st : DatabaseState) (since m : Nat)
    (hm : m < 4294967295)
    (hsortC : SeqSorted (fun c : ChangeRow => c.seq) st.changes)
    (hresC : ∀ c ∈ st.changes,
      st.resources.any (fun q => q.internalId == c.internalId) = true)
    (hsortE : SeqSorted (fun c : ExportedRow => c.seq) st.exportedResources) :
    getChanges st since m = .ok
      (((st.changes.filter (fun c => since < c.seq)).take m).map
        (resolveChange st.resources),
       decide ((st.changes.filter (fun c => since < c.seq)).length ≤ m)) ∧
    getExportedResources st since m =
      ((st.exportedResources.filter (fun c => since < c.seq)).take m,
       decide ((st.exportedResources.filter (fun c => since < c.seq)).length ≤ m)) := by
  have hmod : (m + 1) % 4294967296 = m + 1 := Nat.mod_eq_of_lt (by omega)
  have hWC : sortBySeq (fun c => c.seq)
      (st.changes.filter (fun c => since < c.seq)) =
      st.changes.filter (fun c => since < c.seq) :=
    sortBySeq_eq_self _ _ (List.Pairwise.sublist (List.filter_sublist _) hsortC)
  have hWE : sortBySeq (fun c => c.seq)
      (st.exportedResources.filter (fun c => since < c.seq)) =
      st.exportedResources.filter (fun c => since < c.seq) :=
    sortBySeq_eq_self _ _ (List.Pairwise.sublist (List.filter_sublist _) hsortE)
  by_cases hsmall : m + 1 < 2147483648
  · have hlim : sqliteLimitRows m = some (m + 1) := by
      rw [sqliteLimitRows]
      simp only [hmod]
      rw [if_pos hsmall]
    constructor
    · rw [getChanges, changesQuery, hWC, hlim]
      set W := st.changes.filter (fun c => since < c.seq) with hW
      have hrows : ∀ r ∈ W.take (m + 1),
          st.resources.any (fun q => q.internalId == r.internalId) = true :=
        fun r hr => hresC r (List.mem_of_mem_filter (List.take_subset _ _ hr))
      rw [show applyLimit (some (m + 1)) W = W.take (m + 1) from rfl]
      rw [getChangesFromRows, changesLoop_ok st.resources _ m hrows]
      dsimp only
      rw [List.length_map]
      rw [done_flag_of W (W.take (m + 1)) m (take_take_succ W m)
        (drop_take_succ_nil_iff W m), take_take_succ W m]
    · rw [getExportedResources, exportedQuery, hWE, hlim]
      set W := st.exportedResources.filter (fun c => since < c.seq) with hW
      rw [show applyLimit (some (m + 1)) W = W.take (m + 1) from rfl]
      rw [getExportedFromRows]
      rw [done_flag_of W (W.take (m + 1)) m (take_take_succ W m)
        (drop_take_succ_nil_iff W m), take_take_succ W m]
  · have hlim : sqliteLimitRows m = none := by
      rw [sqliteLimitRows]
      simp only [hmod]
      rw [if_neg hsmall]
    constructor
    · rw [getChanges, changesQuery, hWC, hlim]
      set W := st.changes.filter (fun c => since < c.seq) with hW
      have hrows : ∀ r ∈ W,
          st.resources.any (fun q => q.internalId == r.internalId) = true :=
        fun r hr => hresC r (List.mem_of_mem_filter hr)
      rw [show applyLimit none W = W from rfl]
      rw [getChangesFromRows, changesLoop_ok st.resources _ m hrows]
      dsimp only
      rw [List.length_map]
      rw [done_flag_of W W m rfl (drop_nil_iff W m)]
    · rw [getExportedResources, exportedQuery, hWE, hlim]
      set W := st.exportedResources.filter (fun c => since < c.seq) with hW
      rw [show applyLimit none W = W from rfl]
      rw [getExportedFromRows]
      rw [done_flag_of W W m rfl (drop_nil_iff W m)]

/-- C4 counterexample: at `maxResults = 4294967295` (`UINT32_MAX`), the
`uint32_t` sum `maxResults + 1` wraps to 0, the statement is bound with
`LIMIT 0`, and `GetChanges` returns no record and `done = true` even though
one matching record exists (with its resource present) and
`1 ≤ maxResults` — contradicting the claim that exactly the matching
records, capped at `maxResults`, are returned. -/
theorem c4_pagination_counterexample :
    getChanges oneChangeState 0 4294967295 = .ok ([], true) ∧
    (oneChangeState.changes.filter (fun c => 0 < c.seq)).length = 1 ∧
    (∀ c ∈ oneChangeState.changes, oneChangeState.resources.any
      (fun q => q.internalId == c.internalId) = true) := by
  refine ⟨rfl, rfl, by decide⟩

/-- C4 amended witness: with one patient, two change records and one export
record, a call with `maxResults = 1` returns the first change with
`done = false` and the single export record with `done = true`. -/
theorem c4_pagination_amended_witness :
    (1 < 4294967295 ∧
      SeqSorted (fun c : ChangeRow => c.seq) paginationState.changes ∧
      (∀ c ∈ paginationState.changes, paginationState.resources.any
        (fun q => q.internalId == c.internalId) = true) ∧
      SeqSorted (fun c : ExportedRow => c.seq) paginationState.exportedResources) ∧
    (getChanges paginationState 0 1 = .ok
      (((paginationState.changes.filter (fun c => 0 < c.seq)).take 1).map
        (resolveChange paginationState.resources),
       decide ((paginationState.changes.filter (fun c => 0 < c.seq)).length ≤ 1)) ∧
    getExportedResources paginationState 0 1 =
      ((paginationState.exportedResources.filter (fun c => 0 < c.seq)).take 1,
       decide ((paginationState.exportedResources.filter
         (fun c => 0 < c.seq)).length ≤ 1))) :=
  ⟨⟨by decide, by decide, by decide, by decide⟩,
    c4_pagination_amended paginationState 0 1 (by decide) (by decide)
      (by decide) (by decide)⟩

end Orthanc
